import Mathlib

/-!
Shallow embedding of the PDF text-extraction and redact-and-reinsert editing
engine of `app/pdf_processing.py` (functions `extract_text_from_pdf` and
`apply_text_edits_to_pdf`), together with a model of the JSON interchange
format used by `app/routes.py` to persist the extraction between requests.

Modelling conventions:
- A `fitz` document is a `Doc`: a list of `Page`s plus failure oracles for the
  fallible external-library calls (`fitz.open`, `doc.save`).  Each `Page`
  carries the structured text of `page.get_text("dict")` — a list of blocks,
  each with an optional `type` field and a list of lines of spans — plus
  failure oracles for `page.add_redact_annot` (indexed by call number on that
  page), `page.apply_redactions`, and `page.insert_text` (indexed by call
  number).  The oracles model the fact that the external library may raise in
  those calls; the Python code wraps each of them in `try/except`.
- Python dict values that may be absent (`span.get(key)` / `span.get(key, d)`)
  are modelled as `Option`; `span.get(key, d)` is `Option.getD _ d`.
- Numeric values (coordinates, sizes) are modelled as `ℚ`, colours as `ℤ`.
- Python `str(page_number)` is modelled by `pyStr`, and Python `int(s)` (which
  strips surrounding whitespace, accepts an optional sign and underscores
  between digits, and raises `ValueError` otherwise) by `pyInt`, returning
  `none` where Python raises.
- Raising an exception out of a function is modelled with `Except`; exceptions
  that the code catches and logs are simply the skip-branches of the
  definitions, mirroring the `continue` statements of the source.
-/

/-- Whitespace characters stripped by Python `int()` before parsing. -/
def isPySpace (c : Char) : Bool :=
  c = ' ' || c = '\t' || c = '\n' || c = '\r' || c = '\x0b' || c = '\x0c'

/-- Strip leading and trailing whitespace, as Python `int()` does. -/
def pyStrip (cs : List Char) : List Char :=
  ((cs.dropWhile isPySpace).reverse.dropWhile isPySpace).reverse

/-- Tail of a Python integer-literal digit part: digits with single
underscores allowed only between digits. -/
def pyDigitTail : List Char → Bool
  | [] => true
  | c :: rest =>
    if c = '_' then
      match rest with
      | [] => false
      | d :: rest2 => d.isDigit && pyDigitTail rest2
    else c.isDigit && pyDigitTail rest

/-- A valid Python digit part: nonempty, starts with a digit, underscores
only between digits (grammar `digit (["_"] digit)*`). -/
def pyDigitPart : List Char → Bool
  | [] => false
  | c :: rest => c.isDigit && pyDigitTail rest

/-- Numeric value of a digit part, ignoring underscores. -/
def digitsVal (cs : List Char) : Nat :=
  cs.foldl (fun a c => if c = '_' then a else a * 10 + (c.toNat - 48)) 0

/-- Model of Python `int(s)` for a decimal string: `some n` where Python
returns `n`, `none` where Python raises `ValueError`. -/
def pyInt (s : String) : Option Int :=
  match pyStrip s.toList with
  | [] => none
  | c :: rest =>
    if c = '+' then (if pyDigitPart rest then some (digitsVal rest : Int) else none)
    else if c = '-' then (if pyDigitPart rest then some (-(digitsVal rest : Int)) else none)
    else if pyDigitPart (c :: rest) then some (digitsVal (c :: rest) : Int) else none

/-- Fuel-driven canonical base-10 rendering of a natural number (most
significant digit first); the fuel bounds the number of digits produced and
`pyStr` always supplies enough. -/
def pyStrCore : Nat → Nat → List Char → List Char
  | 0, _, acc => acc
  | fuel + 1, n, acc =>
    let d := Char.ofNat (48 + n % 10)
    if n < 10 then d :: acc else pyStrCore fuel (n / 10) (d :: acc)

/-- Model of Python `str(n)` for a non-negative integer: canonical base-10,
no sign, no leading zeros (except `"0"` itself). -/
def pyStr (n : Nat) : String :=
  String.mk (pyStrCore (n + 1) n [])

/-- One span of `page.get_text("dict")`: the raw dictionary the library hands
back, whose fields the code reads with `span.get(...)`; absent keys are
`none`. -/
structure Span where
  text : Option String
  bbox : Option (List ℚ)
  font : Option String
  size : Option ℚ
  color : Option Int
deriving Repr, DecidableEq, Inhabited

/-- One line of a text block: its list of spans (`line.get("spans", [])`). -/
structure Line where
  spans : List Span
deriving Repr, DecidableEq, Inhabited

/-- One block of `page.get_text("dict")`: its optional `type` field (`0` for
text blocks) and its lines (`block.get("lines", [])`). -/
structure Block where
  type : Option Int
  lines : List Line
deriving Repr, DecidableEq, Inhabited

/-- A parsed PDF page: the structured text returned by `page.get_text("dict")`
plus failure oracles for the fallible library calls made on the page.
`addRedactFails k` says whether the `k`-th `page.add_redact_annot` call on
this page raises; `insertTextFails k` likewise for `page.insert_text`. -/
structure Page where
  blocks : List Block
  addRedactFails : Nat → Bool
  applyRedactionsFails : Bool
  insertTextFails : Nat → Bool

/-- A PDF document handle: its pages plus failure oracles for `fitz.open`
and `doc.save`. -/
structure Doc where
  openFails : Bool
  pages : List Page
  saveFails : Bool

/-- One extracted fragment (the `span_info` dict built by
`extract_text_from_pdf`): every field present, with the extraction defaults
applied (`""`, `[]`, `""`, `0`, `0`). -/
structure SpanInfo where
  text : String
  bbox : List ℚ
  font : String
  size : ℚ
  color : Int
deriving Repr, DecidableEq, Inhabited

/-- The extraction result (`FragmentModel`): one fragment list per page. -/
structure Extraction where
  pages : List (List SpanInfo)
deriving Repr, DecidableEq, Inhabited

/-- The fatal errors either operation can surface to its caller. -/
inductive PdfError where
  | openError : PdfError
  | saveError : PdfError
deriving Repr, DecidableEq

/-- The span traversal of `extract_text_from_pdf` (lines 56-69): iterate
blocks, skip any block whose `type` is not `0`, then lines, then spans,
recording each span's properties with the `.get` defaults of lines 62-68. -/
def pageSpansExtract (page : Page) : List SpanInfo :=
  (page.blocks.filter fun block => block.type == some 0).flatMap fun block =>
    block.lines.flatMap fun line =>
      line.spans.map fun span =>
        { text := span.text.getD ""
          bbox := span.bbox.getD []
          font := span.font.getD ""
          size := span.size.getD 0
          color := span.color.getD 0 }

/-- `extract_text_from_pdf` (lines 14-73): open the document (propagating the
open failure), then build one fragment list per page in physical order. -/
def extract_text_from_pdf (doc : Doc) : Except PdfError Extraction :=
  if doc.openFails then Except.error PdfError.openError
  else Except.ok { pages := doc.pages.map pageSpansExtract }

/-- One redaction-plan entry: the properties stored in the `annotations` list
(lines 149-156) after a successful `add_redact_annot` call.  The `annot`
handle itself carries no further information and is omitted. -/
structure PlanEntry where
  bbox : List ℚ
  font : String
  size : ℚ
  color : Int
  new_text : String
deriving Repr, DecidableEq, Inhabited

/-- One successful `page.insert_text` call (lines 179-182): the insertion
point, the text, and the font name, size and colour passed to the library. -/
structure TextInsertion where
  point : ℚ × ℚ
  text : String
  fontname : String
  fontsize : ℚ
  color : ℚ × ℚ × ℚ
deriving Repr, DecidableEq, Inhabited

/-- The observable effect of `apply_text_edits_to_pdf` on one page: which
bboxes were successfully marked for redaction (with white fill), whether
`apply_redactions` was called and whether it succeeded, and which text
insertions were performed. -/
structure PageResult where
  marked : List (List ℚ)
  commitAttempted : Bool
  committed : Bool
  inserted : List TextInsertion
deriving Repr, DecidableEq, Inhabited

/-- The effect on a page the rewriter never touches. -/
def emptyPageResult : PageResult :=
  { marked := [], commitAttempted := false, committed := false, inserted := [] }

/-- The span re-derivation of `apply_text_edits_to_pdf` (lines 115-122): the
same block/line/span traversal as extraction, collecting the raw spans. -/
def pageSpansApply (page : Page) : List Span :=
  (page.blocks.filter fun block => block.type == some 0).flatMap fun block =>
    block.lines.flatMap fun line => line.spans

/-- The plan-building loop of `apply_text_edits_to_pdf` (lines 127-159): for
each `(span_index_str, new_text)` item of the page's edits, parse the index
with Python `int` (a `ValueError` is logged and the entry skipped), range-check
it, fetch the span, skip it if its bbox is falsy (`None` or empty), then try
`add_redact_annot` — the `k`-th such call on this page — and on success record
the plan entry with the `.get` defaults of lines 152-154. -/
def processEdits (page : Page) (spans : List Span) :
    List (String × String) → Nat → List PlanEntry
  | [], _ => []
  | (span_index_str, new_text) :: rest, k =>
    match pyInt span_index_str with
    | none => processEdits page spans rest k
    | some span_index =>
      if span_index < 0 ∨ (spans.length : Int) ≤ span_index then
        processEdits page spans rest k
      else
        let span := spans.getD span_index.toNat default
        if span.bbox = none ∨ span.bbox = some [] then
          processEdits page spans rest k
        else if page.addRedactFails k then
          processEdits page spans rest (k + 1)
        else
          { bbox := span.bbox.getD []
            font := span.font.getD "helv"
            size := span.size.getD 12
            color := span.color.getD 0
            new_text := new_text } :: processEdits page spans rest (k + 1)

/-- The re-insertion loop of `apply_text_edits_to_pdf` (lines 169-185): for
each plan entry, compute the insertion point `(bbox[0], bbox[3] - 1)` — a
bbox with fewer than four coordinates makes the subscript raise, which the
`except` absorbs before `insert_text` is ever called — then try
`page.insert_text` (the `k`-th call on this page) with the entry's font and
size and colour `(0, 0, 0)`. -/
def insertLoop (page : Page) : List PlanEntry → Nat → List TextInsertion
  | [], _ => []
  | item :: rest, k =>
    if item.bbox.length < 4 then
      insertLoop page rest k
    else if page.insertTextFails k then
      insertLoop page rest (k + 1)
    else
      { point := (item.bbox.getD 0 0, item.bbox.getD 3 0 - 1)
        text := item.new_text
        fontname := item.font
        fontsize := item.size
        color := (0, 0, 0) } :: insertLoop page rest (k + 1)

/-- Processing of one page that has an entry in `edits` (lines 114-185):
re-derive the spans, build the redaction plan (every successfully built entry
has also been marked), call `apply_redactions` — if it raises, the page is
left without any insertion (`continue`) — and otherwise run the insertion
loop. -/
def processPage (page : Page) (page_edits : List (String × String)) : PageResult :=
  let spans := pageSpansApply page
  let plan := processEdits page spans page_edits 0
  if page.applyRedactionsFails then
    { marked := plan.map PlanEntry.bbox
      commitAttempted := true
      committed := false
      inserted := [] }
  else
    { marked := plan.map PlanEntry.bbox
      commitAttempted := true
      committed := true
      inserted := insertLoop page plan 0 }

/-- The page-indexed edits dictionary: page key (a string) to a dictionary of
span-index key (a string) to replacement text, in insertion order. -/
abbrev PageEdits := List (String × String)

/-- The full edits dictionary passed to `apply_text_edits_to_pdf`. -/
abbrev Edits := List (String × PageEdits)

/-- The per-page dispatch of the main loop (lines 108-112): a page whose key
`str(page_number)` is not in `edits` is skipped untouched. -/
def pageStep (edits : Edits) (pi : Nat × Page) : PageResult :=
  match List.lookup (pyStr pi.1) edits with
  | none => emptyPageResult
  | some page_edits => processPage pi.2 page_edits

/-- `apply_text_edits_to_pdf` (lines 75-197): open the document (propagating
the failure), process every page in order, then save; a save failure
propagates and yields no output bytes.  The returned value models the saved
document: the per-page effects in page order. -/
def apply_text_edits_to_pdf (doc : Doc) (edits : Edits) :
    Except PdfError (List PageResult) :=
  if doc.openFails then Except.error PdfError.openError
  else if doc.saveFails then Except.error PdfError.saveError
  else Except.ok (doc.pages.enum.map (pageStep edits))

instance {e a : Type} [DecidableEq e] [DecidableEq a] : DecidableEq (Except e a)
  | Except.error x, Except.error y =>
    if h : x = y then Decidable.isTrue (by rw [h])
    else Decidable.isFalse (by intro hc; cases hc; exact h rfl)
  | Except.error _, Except.ok _ => Decidable.isFalse (by intro hc; cases hc)
  | Except.ok _, Except.error _ => Decidable.isFalse (by intro hc; cases hc)
  | Except.ok x, Except.ok y =>
    if h : x = y then Decidable.isTrue (by rw [h])
    else Decidable.isFalse (by intro hc; cases hc; exact h rfl)

/-- Modelled from the spec: a JSON value, as produced and consumed by the
serialization boundary of section 6.  The repository serializes the
extraction dictionary with Python's `json` module (`json.dump` in `upload`,
`json.load` in `edit` of `app/routes.py`); the `json` module itself is not
part of the repository, so the interchange format is modelled from the
spec's grammar. -/
inductive Json where
  | null : Json
  | bool : Bool → Json
  | num : ℚ → Json
  | str : String → Json
  | arr : List Json → Json
  | obj : List (String × Json) → Json

/-- Sequence a decoding function over a list, failing if any element fails. -/
def optList {α β : Type} (f : α → Option β) : List α → Option (List β)
  | [] => some []
  | a :: as =>
    match f a, optList f as with
    | some b, some bs => some (b :: bs)
    | _, _ => none

/-- Decode a JSON number. -/
def decodeNum : Json → Option ℚ
  | Json.num q => some q
  | _ => none

/-- Decode a JSON string. -/
def decodeStr : Json → Option String
  | Json.str s => some s
  | _ => none

/-- Decode a JSON integer (a number with denominator 1). -/
def decodeInt : Json → Option Int
  | Json.num q => if q.den = 1 then some q.num else none
  | _ => none

/-- Decode a JSON array of numbers (a bbox). -/
def decodeNumList : Json → Option (List ℚ)
  | Json.arr js => optList decodeNum js
  | _ => none

/-- Modelled from the spec: the `Fragment JSON` encoding of section 6, an
object with the `text`, `bbox`, `font`, `size` and `color` fields of one
extracted span. -/
def encodeFragment (fr : SpanInfo) : Json :=
  Json.obj [("text", Json.str fr.text),
            ("bbox", Json.arr (fr.bbox.map Json.num)),
            ("font", Json.str fr.font),
            ("size", Json.num fr.size),
            ("color", Json.num (fr.color : ℚ))]

/-- Modelled from the spec: decoding of one `Fragment JSON` object. -/
def decodeFragment : Json → Option SpanInfo
  | Json.obj fields =>
    match (List.lookup "text" fields).bind decodeStr,
          (List.lookup "bbox" fields).bind decodeNumList,
          (List.lookup "font" fields).bind decodeStr,
          (List.lookup "size" fields).bind decodeNum,
          (List.lookup "color" fields).bind decodeInt with
    | some t, some b, some f, some s, some c =>
      some { text := t, bbox := b, font := f, size := s, color := c }
    | _, _, _, _, _ => none
  | _ => none

/-- Modelled from the spec: the encoding of one page's fragment list. -/
def encodePage (pg : List SpanInfo) : Json :=
  Json.arr (pg.map encodeFragment)

/-- Modelled from the spec: decoding of one page's fragment list. -/
def decodePage : Json → Option (List SpanInfo)
  | Json.arr js => optList decodeFragment js
  | _ => none

/-- Modelled from the spec: the `FragmentModel JSON` encoding of section 6,
an object with a single `"pages"` key holding the array of page arrays. -/
def encodeExtraction (m : Extraction) : Json :=
  Json.obj [("pages", Json.arr (m.pages.map encodePage))]

/-- Modelled from the spec: decoding of a `FragmentModel JSON` object. -/
def decodeExtraction : Json → Option Extraction
  | Json.obj fields =>
    match (List.lookup "pages" fields).bind
        (fun pj =>
          match pj with
          | Json.arr pgs => optList decodePage pgs
          | _ => none) with
    | some pages => some { pages := pages }
    | _ => none
  | _ => none

/-- A well-behaved page holding the single span of the spec's section 8
scenario: text `"Hello"`, bbox `[10,10,50,20]`, font `"Helvetica"`, size 12,
colour 0; no library call on it fails. -/
def helloPage : Page :=
  { blocks := [{ type := some 0,
                 lines := [{ spans := [{ text := some "Hello",
                                         bbox := some [10, 10, 50, 20],
                                         font := some "Helvetica",
                                         size := some 12,
                                         color := some 0 }] }] }]
    addRedactFails := fun _ => false
    applyRedactionsFails := false
    insertTextFails := fun _ => false }

/-- A page holding one span whose `font` is present but the empty string and
whose `size` is present but zero. -/
def emptyFontPage : Page :=
  { blocks := [{ type := some 0,
                 lines := [{ spans := [{ text := some "x",
                                         bbox := some [1, 2, 3, 4],
                                         font := some "",
                                         size := some 0,
                                         color := some 5 }] }] }]
    addRedactFails := fun _ => false
    applyRedactionsFails := false
    insertTextFails := fun _ => false }

/-- A page identical to `helloPage` except that `apply_redactions` fails. -/
def commitFailPage : Page :=
  { blocks := helloPage.blocks
    addRedactFails := fun _ => false
    applyRedactionsFails := true
    insertTextFails := fun _ => false }

/-- A one-page document around `helloPage`; nothing fails. -/
def helloDoc : Doc :=
  { openFails := false, pages := [helloPage], saveFails := false }

/-- A two-page document (two copies of `helloPage`); nothing fails. -/
def twoPageDoc : Doc :=
  { openFails := false, pages := [helloPage, helloPage], saveFails := false }

/-- A document whose bytes cannot be opened as a PDF. -/
def corruptDoc : Doc :=
  { openFails := true, pages := [], saveFails := false }

theorem isDigit_facts (c : Char) (h : c.isDigit = true) :
    c ≠ '+' ∧ c ≠ '-' ∧ c ≠ '_' ∧ isPySpace c = false := by
  refine ⟨?_, ?_, ?_, ?_⟩
  · rintro rfl; exact absurd h (by decide)
  · rintro rfl; exact absurd h (by decide)
  · rintro rfl; exact absurd h (by decide)
  · rcases hc : isPySpace c with _ | _
    · rfl
    · exfalso
      simp only [isPySpace, Bool.or_eq_true, decide_eq_true_eq] at hc
      rcases hc with (((((rfl | rfl) | rfl) | rfl) | rfl) | rfl) <;>
        exact absurd h (by decide)

theorem pyDigitTail_cons (c : Char) (rest : List Char) :
    pyDigitTail (c :: rest) =
      if c = '_' then
        (match rest with
         | [] => false
         | d :: rest2 => d.isDigit && pyDigitTail rest2)
      else c.isDigit && pyDigitTail rest := by
  rw [pyDigitTail.eq_def]

theorem pyDigitTail_all (cs : List Char) (h : ∀ c ∈ cs, c.isDigit = true) :
    pyDigitTail cs = true := by
  induction cs with
  | nil => rfl
  | cons c rest ih =>
    have hc := h c (List.mem_cons_self _ _)
    have hne : c ≠ '_' := (isDigit_facts c hc).2.2.1
    rw [pyDigitTail_cons, if_neg hne, hc,
      ih (fun d hd => h d (List.mem_cons_of_mem _ hd))]
    rfl

theorem pyDigitPart_all (cs : List Char) (h0 : cs ≠ [])
    (h : ∀ c ∈ cs, c.isDigit = true) : pyDigitPart cs = true := by
  cases cs with
  | nil => exact absurd rfl h0
  | cons c rest =>
    rw [pyDigitPart, h c (List.mem_cons_self _ _),
      pyDigitTail_all rest (fun d hd => h d (List.mem_cons_of_mem _ hd))]
    rfl

theorem dropWhile_eq_self_of {α : Type} (p : α → Bool) (cs : List α)
    (h : ∀ c ∈ cs, p c = false) : cs.dropWhile p = cs := by
  cases cs with
  | nil => rfl
  | cons c rest =>
    rw [List.dropWhile_cons, h c (List.mem_cons_self _ _)]
    simp

theorem pyStrip_eq_self (cs : List Char) (h : ∀ c ∈ cs, isPySpace c = false) :
    pyStrip cs = cs := by
  unfold pyStrip
  rw [dropWhile_eq_self_of _ _ h,
    dropWhile_eq_self_of _ _ (fun c hc => h c (List.mem_reverse.mp hc)),
    List.reverse_reverse]

theorem digitChar_facts (k : Nat) (hk : k < 10) :
    (Char.ofNat (48 + k)).isDigit = true ∧ (Char.ofNat (48 + k)).toNat - 48 = k := by
  interval_cases k <;> exact ⟨by decide, by decide⟩

theorem pyStrCore_spec : ∀ (fuel n : Nat) (acc : List Char), n < fuel →
    ∃ ds, pyStrCore fuel n acc = ds ++ acc ∧ ds ≠ [] ∧
      (∀ c ∈ ds, c.isDigit = true) ∧ digitsVal ds = n := by
  intro fuel
  induction fuel with
  | zero => intro n acc h; omega
  | succ fuel ih =>
    intro n acc h
    have hmod : n % 10 < 10 := Nat.mod_lt _ (by omega)
    obtain ⟨hdig, hvalc⟩ := digitChar_facts (n % 10) hmod
    have hund : Char.ofNat (48 + n % 10) ≠ '_' := (isDigit_facts _ hdig).2.2.1
    by_cases h10 : n < 10
    · refine ⟨[Char.ofNat (48 + n % 10)], ?_, by simp, ?_, ?_⟩
      · simp [pyStrCore, h10]
      · intro c hc
        rw [List.mem_singleton] at hc
        rw [hc]; exact hdig
      · rw [digitsVal]
        simp only [List.foldl_cons, List.foldl_nil, if_neg hund]
        rw [hvalc]
        omega
    · have hdiv : n / 10 < fuel := by omega
      obtain ⟨ds', hds', hne, hdigs, hval⟩ :=
        ih (n / 10) (Char.ofNat (48 + n % 10) :: acc) hdiv
      refine ⟨ds' ++ [Char.ofNat (48 + n % 10)], ?_, by simp, ?_, ?_⟩
      · rw [pyStrCore, if_neg h10, hds', List.append_assoc, List.singleton_append]
      · intro c hc
        rcases List.mem_append.mp hc with hc | hc
        · exact hdigs c hc
        · rw [List.mem_singleton] at hc
          rw [hc]; exact hdig
      · rw [digitsVal, List.foldl_append]
        simp only [List.foldl_cons, List.foldl_nil, if_neg hund]
        rw [hvalc]
        have : List.foldl (fun a c => if c = '_' then a else a * 10 + (c.toNat - 48)) 0 ds'
            = n / 10 := hval
        rw [this]
        omega

theorem pyInt_pyStr (n : Nat) : pyInt (pyStr n) = some (n : Int) := by
  obtain ⟨ds, hds, hne, hdig, hval⟩ := pyStrCore_spec (n + 1) n [] (Nat.lt_succ_self n)
  have hlist : (pyStr n).toList = ds := by
    have h0 : (pyStr n).toList = pyStrCore (n + 1) n [] := rfl
    rw [h0, hds, List.append_nil]
  have hstrip : pyStrip ds = ds :=
    pyStrip_eq_self ds (fun c hc => (isDigit_facts c (hdig c hc)).2.2.2)
  cases ds with
  | nil => exact absurd rfl hne
  | cons c rest =>
    obtain ⟨hp, hm, _, _⟩ := isDigit_facts c (hdig c (List.mem_cons_self _ _))
    have hpart : pyDigitPart (c :: rest) = true :=
      pyDigitPart_all _ (by simp) hdig
    unfold pyInt
    rw [hlist, hstrip]
    simp only [if_neg hp, if_neg hm, hpart, if_pos]
    rw [hval]

theorem processEdits_tail_congr (page : Page) (spans : List Span) (p : String × String)
    (l1 l2 : PageEdits)
    (h : ∀ k, processEdits page spans l1 k = processEdits page spans l2 k) :
    ∀ k, processEdits page spans (p :: l1) k = processEdits page spans (p :: l2) k := by
  intro k
  obtain ⟨s0, t0⟩ := p
  cases h0 : pyInt s0 with
  | none => simp only [processEdits, h0]; exact h k
  | some n0 =>
    simp only [processEdits, h0]
    by_cases hr : n0 < 0 ∨ (spans.length : Int) ≤ n0
    · rw [if_pos hr, if_pos hr]; exact h k
    · rw [if_neg hr, if_neg hr]
      by_cases hb : (spans.getD n0.toNat default).bbox = none ∨
          (spans.getD n0.toNat default).bbox = some []
      · rw [if_pos hb, if_pos hb]; exact h k
      · rw [if_neg hb, if_neg hb]
        by_cases ha : page.addRedactFails k
        · rw [if_pos ha, if_pos ha]; exact h (k + 1)
        · rw [if_neg ha, if_neg ha, h (k + 1)]

theorem processEdits_drop (page : Page) (spans : List Span) (s t : String)
    (hbad : pyInt s = none ∨
      ∃ n : Int, pyInt s = some n ∧ (n < 0 ∨ (spans.length : Int) ≤ n)) :
    ∀ (pre post : PageEdits) (k : Nat),
      processEdits page spans (pre ++ (s, t) :: post) k =
        processEdits page spans (pre ++ post) k := by
  intro pre
  induction pre with
  | nil =>
    intro post k
    simp only [List.nil_append]
    rcases hbad with hn | ⟨n, hs, hr⟩
    · simp only [processEdits, hn]
    · simp only [processEdits, hs]
      rw [if_pos hr]
  | cons p pre ih =>
    intro post k
    simp only [List.cons_append]
    exact processEdits_tail_congr page spans p _ _ (fun k2 => ih post k2) k

theorem processPage_congr (page : Page) (pe1 pe2 : PageEdits)
    (h : ∀ k, processEdits page (pageSpansApply page) pe1 k =
      processEdits page (pageSpansApply page) pe2 k) :
    processPage page pe1 = processPage page pe2 := by
  unfold processPage
  simp only [h 0]

theorem apply_eq_ok (doc : Doc) (edits : Edits) (h1 : doc.openFails = false)
    (h2 : doc.saveFails = false) :
    apply_text_edits_to_pdf doc edits =
      Except.ok (doc.pages.enum.map (pageStep edits)) := by
  simp [apply_text_edits_to_pdf, h1, h2]

theorem lookup_append_cons_ne {β : Type} (a k : String) (v : β)
    (pre post : List (String × β)) (h : k ≠ a) :
    List.lookup a (pre ++ (k, v) :: post) = List.lookup a (pre ++ post) := by
  induction pre with
  | nil =>
    simp only [List.nil_append, List.lookup]
    have hne : (a == k) = false := by simp [Ne.symm h]
    simp [hne]
  | cons p ps ih =>
    obtain ⟨k2, v2⟩ := p
    simp only [List.cons_append, List.lookup]
    cases (a == k2) <;> simp [ih]

theorem enumFrom_getElem? {α : Type} :
    ∀ (l : List α) (n i : Nat),
      (List.enumFrom n l)[i]? = l[i]?.map fun a => (n + i, a) := by
  intro l
  induction l with
  | nil => intro n i; simp
  | cons x xs ih =>
    intro n i
    cases i with
    | zero => simp [List.enumFrom]
    | succ j =>
      have h2 := ih (n + 1) j
      simp only [List.enumFrom, List.getElem?_cons_succ]
      rw [h2]
      have h3 : n + 1 + j = n + (j + 1) := by omega
      rw [h3]

theorem mem_enumFrom_bound {α : Type} :
    ∀ (l : List α) (n : Nat) (x : Nat × α),
      x ∈ List.enumFrom n l → n ≤ x.1 ∧ x.1 < n + l.length := by
  intro l
  induction l with
  | nil => intro n x hx; simp [List.enumFrom] at hx
  | cons y ys ih =>
    intro n x hx
    simp only [List.enumFrom, List.mem_cons] at hx
    rcases hx with rfl | hx
    · simp
    · have hb := ih (n + 1) x hx
      simp only [List.length_cons]
      omega

theorem apply_edits_ext (doc : Doc) (edits edits' : Edits)
    (h : ∀ j, j < doc.pages.length →
      List.lookup (pyStr j) edits = List.lookup (pyStr j) edits') :
    apply_text_edits_to_pdf doc edits = apply_text_edits_to_pdf doc edits' := by
  by_cases h1 : doc.openFails
  · unfold apply_text_edits_to_pdf
    rw [if_pos h1, if_pos h1]
  · have h1f : doc.openFails = false := by
      cases hb : doc.openFails
      · rfl
      · exact absurd hb h1
    by_cases h2 : doc.saveFails
    · unfold apply_text_edits_to_pdf
      rw [if_neg h1, if_neg h1, if_pos h2, if_pos h2]
    · have h2f : doc.saveFails = false := by
        cases hb : doc.saveFails
        · rfl
        · exact absurd hb h2
      rw [apply_eq_ok doc edits h1f h2f, apply_eq_ok doc edits' h1f h2f]
      congr 1
      apply List.map_congr_left
      intro x hx
      obtain ⟨j, p⟩ := x
      have hb := (mem_enumFrom_bound doc.pages 0 (j, p) hx).2
      unfold pageStep
      rw [h j (by omega)]

theorem apply_drop_key (doc : Doc) (K : String) (v : PageEdits)
    (hK : ∀ j, j < doc.pages.length → K ≠ pyStr j) (pre post : Edits) :
    apply_text_edits_to_pdf doc (pre ++ (K, v) :: post) =
      apply_text_edits_to_pdf doc (pre ++ post) :=
  apply_edits_ext _ _ _ (fun j hj =>
    lookup_append_cons_ne (pyStr j) K v pre post (hK j hj))

theorem insertLoop_mem (page : Page) :
    ∀ (plan : List PlanEntry) (k : Nat) (ins : TextInsertion),
      ins ∈ insertLoop page plan k →
      ∃ item ∈ plan, ¬(item.bbox.length < 4) ∧
        ins = { point := (item.bbox.getD 0 0, item.bbox.getD 3 0 - 1)
                text := item.new_text
                fontname := item.font
                fontsize := item.size
                color := (0, 0, 0) } := by
  intro plan
  induction plan with
  | nil => intro k ins h; simp [insertLoop] at h
  | cons item rest ih =>
    intro k ins h
    simp only [insertLoop] at h
    by_cases h4 : item.bbox.length < 4
    · rw [if_pos h4] at h
      obtain ⟨it, hit, hrest⟩ := ih k ins h
      exact ⟨it, List.mem_cons_of_mem _ hit, hrest⟩
    · rw [if_neg h4] at h
      by_cases hf : page.insertTextFails k
      · rw [if_pos hf] at h
        obtain ⟨it, hit, hrest⟩ := ih (k + 1) ins h
        exact ⟨it, List.mem_cons_of_mem _ hit, hrest⟩
      · rw [if_neg hf] at h
        rcases List.mem_cons.mp h with heq | h
        · exact ⟨item, List.mem_cons_self _ _, h4, heq⟩
        · obtain ⟨it, hit, hrest⟩ := ih (k + 1) ins h
          exact ⟨it, List.mem_cons_of_mem _ hit, hrest⟩

theorem insertLoop_all (page : Page)
    (hins : ∀ j, page.insertTextFails j = false) :
    ∀ (plan : List PlanEntry) (k : Nat),
      (∀ item ∈ plan, ¬(item.bbox.length < 4)) →
      insertLoop page plan k = plan.map fun item =>
        { point := (item.bbox.getD 0 0, item.bbox.getD 3 0 - 1)
          text := item.new_text
          fontname := item.font
          fontsize := item.size
          color := (0, 0, 0) } := by
  intro plan
  induction plan with
  | nil => intro k h; rfl
  | cons item rest ih =>
    intro k h
    simp only [insertLoop, List.map_cons]
    rw [if_neg (h item (List.mem_cons_self _ _)), hins k]
    simp only [Bool.false_eq_true, if_false]
    rw [ih (k + 1) (fun it hit => h it (List.mem_cons_of_mem _ hit))]

theorem processEdits_mem (page : Page) (spans : List Span) :
    ∀ (pe : PageEdits) (k : Nat) (entry : PlanEntry),
      entry ∈ processEdits page spans pe k →
      ∃ (idxStr txt : String) (n : Int), (idxStr, txt) ∈ pe ∧
        pyInt idxStr = some n ∧ 0 ≤ n ∧ n.toNat < spans.length ∧
        ¬((spans.getD n.toNat default).bbox = none ∨
          (spans.getD n.toNat default).bbox = some []) ∧
        entry = { bbox := (spans.getD n.toNat default).bbox.getD []
                  font := (spans.getD n.toNat default).font.getD "helv"
                  size := (spans.getD n.toNat default).size.getD 12
                  color := (spans.getD n.toNat default).color.getD 0
                  new_text := txt } := by
  intro pe
  induction pe with
  | nil => intro k entry h; simp [processEdits] at h
  | cons p rest ih =>
    intro k entry h
    obtain ⟨s0, t0⟩ := p
    cases h0 : pyInt s0 with
    | none =>
      simp only [processEdits, h0] at h
      obtain ⟨a, b, n, hmem, hrest⟩ := ih k entry h
      exact ⟨a, b, n, List.mem_cons_of_mem _ hmem, hrest⟩
    | some n0 =>
      simp only [processEdits, h0] at h
      by_cases hr : n0 < 0 ∨ (spans.length : Int) ≤ n0
      · rw [if_pos hr] at h
        obtain ⟨a, b, n, hmem, hrest⟩ := ih k entry h
        exact ⟨a, b, n, List.mem_cons_of_mem _ hmem, hrest⟩
      · rw [if_neg hr] at h
        by_cases hb : (spans.getD n0.toNat default).bbox = none ∨
            (spans.getD n0.toNat default).bbox = some []
        · rw [if_pos hb] at h
          obtain ⟨a, b, n, hmem, hrest⟩ := ih k entry h
          exact ⟨a, b, n, List.mem_cons_of_mem _ hmem, hrest⟩
        · rw [if_neg hb] at h
          by_cases ha : page.addRedactFails k
          · rw [if_pos ha] at h
            obtain ⟨a, b, n, hmem, hrest⟩ := ih (k + 1) entry h
            exact ⟨a, b, n, List.mem_cons_of_mem _ hmem, hrest⟩
          · rw [if_neg ha] at h
            rcases List.mem_cons.mp h with heq | h
            · push_neg at hr
              refine ⟨s0, t0, n0, List.mem_cons_self _ _, h0, hr.1, ?_, hb, heq⟩
              omega
            · obtain ⟨a, b, n, hmem, hrest⟩ := ih (k + 1) entry h
              exact ⟨a, b, n, List.mem_cons_of_mem _ hmem, hrest⟩

theorem processPage_marked (page : Page) (pe : PageEdits) :
    (processPage page pe).marked =
      (processEdits page (pageSpansApply page) pe 0).map PlanEntry.bbox := by
  unfold processPage
  by_cases h : page.applyRedactionsFails <;> simp [h]

theorem processPage_inserted (page : Page) (pe : PageEdits)
    (h : page.applyRedactionsFails = false) :
    (processPage page pe).inserted =
      insertLoop page (processEdits page (pageSpansApply page) pe 0) 0 := by
  unfold processPage
  simp [h]

theorem processPage_commit_fail (page : Page) (pe : PageEdits)
    (h : (processPage page pe).committed = false) :
    (processPage page pe).inserted = [] := by
  unfold processPage at h ⊢
  by_cases ha : page.applyRedactionsFails
  · simp [ha]
  · simp [ha] at h

theorem pageSpansExtract_eq_map (page : Page) :
    pageSpansExtract page = (pageSpansApply page).map fun span =>
      { text := span.text.getD ""
        bbox := span.bbox.getD []
        font := span.font.getD ""
        size := span.size.getD 0
        color := span.color.getD 0 } := by
  unfold pageSpansExtract pageSpansApply
  rw [List.map_flatMap]
  apply List.flatMap_congr
  intro block _
  rw [List.map_flatMap]

theorem optList_map_of {α β : Type} (f : β → Option α) (g : α → β)
    (hf : ∀ a, f (g a) = some a) : ∀ l : List α, optList f (l.map g) = some l := by
  intro l
  induction l with
  | nil => rfl
  | cons a as ih => simp [optList, hf a, ih]

theorem decodeFragment_encodeFragment (fr : SpanInfo) :
    decodeFragment (encodeFragment fr) = some fr := by
  obtain ⟨t, b, f, s, c⟩ := fr
  have hb : optList decodeNum (List.map Json.num b) = some b :=
    optList_map_of decodeNum Json.num (fun q => rfl) b
  simp [encodeFragment, decodeFragment, List.lookup, decodeStr, decodeNum,
    decodeInt, decodeNumList, hb, Rat.den_intCast, Rat.num_intCast]

theorem decodePage_encodePage (pg : List SpanInfo) :
    decodePage (encodePage pg) = some pg := by
  unfold decodePage encodePage
  exact optList_map_of decodeFragment encodeFragment decodeFragment_encodeFragment pg

/-- C9: decoding the JSON encoding of any FragmentModel yields a model equal
to the original: the same page count, the same fragment count on every page,
and identical text, bbox, font, size and color values for every fragment. -/
theorem C9_fragment_model_json_round_trip (m : Extraction) :
    decodeExtraction (encodeExtraction m) = some m := by
  obtain ⟨pages⟩ := m
  have hp : optList decodePage (pages.map encodePage) = some pages :=
    optList_map_of decodePage encodePage decodePage_encodePage pages
  simp [encodeExtraction, decodeExtraction, List.lookup, hp]

/-- C1: for every document and page, the span list `apply_text_edits_to_pdf`
re-derives for that page (its block/line/span traversal skipping blocks whose
type is not 0) has the same length and order as the fragment list
`extract_text_from_pdf` produces for that page of the unmodified document,
and the i-th re-derived span carries the same text, bbox, font, size and
color values as the i-th extracted fragment (the extraction defaults standing
in for fields the raw span does not carry), so an edit built against the
extraction targets the same fragment at apply time. -/
theorem C1_rederivation_matches_extraction (doc : Doc) (ext : Extraction)
    (hx : extract_text_from_pdf doc = Except.ok ext)
    (i : Nat) (page : Page) (hp : doc.pages[i]? = some page) :
    ∃ fr, ext.pages[i]? = some fr ∧
      fr.length = (pageSpansApply page).length ∧
      ∀ (j : Nat) (span : Span), (pageSpansApply page)[j]? = some span →
        fr[j]? = some { text := span.text.getD ""
                        bbox := span.bbox.getD []
                        font := span.font.getD ""
                        size := span.size.getD 0
                        color := span.color.getD 0 } := by
  have hopen : doc.openFails = false := by
    cases hb : doc.openFails
    · rfl
    · unfold extract_text_from_pdf at hx
      rw [if_pos hb] at hx
      cases hx
  unfold extract_text_from_pdf at hx
  rw [hopen] at hx
  simp only [Bool.false_eq_true, if_false] at hx
  have hE : ({ pages := doc.pages.map pageSpansExtract } : Extraction) = ext :=
    Except.ok.inj hx
  subst hE
  refine ⟨pageSpansExtract page, ?_, ?_, ?_⟩
  · simp [List.getElem?_map, hp]
  · rw [pageSpansExtract_eq_map, List.length_map]
  · intro j span hj
    rw [pageSpansExtract_eq_map, List.getElem?_map, hj]
    rfl

/-- C2 counterexample: on a span whose `font` field is present but equal to
the empty string and whose `size` field is present but zero, the plan entry
records font `""` (not the sentinel `"helv"`) and size `0` (not `12`),
refuting the claim that the sentinel is substituted whenever the font is the
empty string and the default whenever the size is zero. -/
theorem C2_counterexample :
    processEdits emptyFontPage (pageSpansApply emptyFontPage) [("0", "new")] 0 =
      [{ bbox := [1, 2, 3, 4], font := "", size := 0, color := 5,
         new_text := "new" }] ∧
    ("" : String) ≠ "helv" ∧ (0 : ℚ) ≠ 12 :=
  ⟨by decide, by decide, by decide⟩

/-- C2 (amended): every redaction-plan entry records the targeted span's bbox
and original color unchanged, its font with the sentinel `"helv"` substituted
only when the span carries no font value at all, and its size with `12`
substituted only when the span carries no size value at all; a font that is
present but empty and a size that is present but zero are recorded as-is. -/
theorem C2_plan_entry_defaults (page : Page) (spans : List Span)
    (pe : PageEdits) (k : Nat) (entry : PlanEntry)
    (h : entry ∈ processEdits page spans pe k) :
    ∃ (idxStr txt : String) (n : Int) (span : Span),
      (idxStr, txt) ∈ pe ∧ pyInt idxStr = some n ∧ 0 ≤ n ∧
      n.toNat < spans.length ∧ span = spans.getD n.toNat default ∧
      entry.bbox = span.bbox.getD [] ∧
      entry.color = span.color.getD 0 ∧
      entry.font = span.font.getD "helv" ∧
      entry.size = span.size.getD 12 ∧
      entry.new_text = txt ∧
      (∀ fo, span.font = some fo → entry.font = fo) ∧
      (∀ sz, span.size = some sz → entry.size = sz) := by
  obtain ⟨a, b, n, hmem, hpy, hn, hlen, hbb, heq⟩ :=
    processEdits_mem page spans pe k entry h
  refine ⟨a, b, n, spans.getD n.toNat default, hmem, hpy, hn, hlen, rfl,
    ?_, ?_, ?_, ?_, ?_, ?_, ?_⟩ <;> rw [heq]
  · intro fo hfo
    simp only [List.getD_eq_getElem?_getD] at hfo ⊢
    simp [hfo]
  · intro sz hsz
    simp only [List.getD_eq_getElem?_getD] at hsz ⊢
    simp [hsz]

/-- C3: an edit whose fragment index is negative or at least the page's
current fragment count, and an edit keyed to a page index that does not exist
in the document, are each skipped without raising and without touching that
page, while every other valid edit in the same EditSet is still applied: the
document processes exactly as if the invalid edit were absent. -/
theorem C3_invalid_edits_skipped :
    (∀ (doc : Doc) (edits : Edits), doc.openFails = false → doc.saveFails = false →
      apply_text_edits_to_pdf doc edits =
        Except.ok (doc.pages.enum.map (pageStep edits))) ∧
    (∀ (doc : Doc) (edits edits' : Edits),
      (∀ j, j < doc.pages.length →
        List.lookup (pyStr j) edits = List.lookup (pyStr j) edits') →
      apply_text_edits_to_pdf doc edits = apply_text_edits_to_pdf doc edits') ∧
    (∀ (page : Page) (pre post : PageEdits) (s t : String) (n : Int),
      pyInt s = some n → (n < 0 ∨ ((pageSpansApply page).length : Int) ≤ n) →
      processPage page (pre ++ (s, t) :: post) = processPage page (pre ++ post)) := by
  refine ⟨apply_eq_ok, apply_edits_ext, ?_⟩
  intro page pre post s t n hs hr
  exact processPage_congr _ _ _ (fun k =>
    processEdits_drop page (pageSpansApply page) s t (Or.inr ⟨n, hs, hr⟩) pre post k)

/-- C3 witness: dropping the out-of-range edit `("7", "bad")` from a page
with a single span leaves the page's processing unchanged. -/
theorem C3_invalid_edits_skipped_witness :
    processPage helloPage ([] ++ ("7", "bad") :: [("0", "Bonjour")]) =
      processPage helloPage ([] ++ [("0", "Bonjour")]) :=
  C3_invalid_edits_skipped.2.2 helloPage [] [("0", "Bonjour")] "7" "bad" 7
    (by decide) (by decide)

/-- C4: a page or fragment key that does not parse as a non-negative integer
never makes `apply_text_edits_to_pdf` raise; the malformed entry is dropped
individually (processing is as if it were absent) and the remaining entries
are still processed. -/
theorem C4_malformed_keys_dropped :
    (∀ (doc : Doc) (edits : Edits), doc.openFails = false → doc.saveFails = false →
      apply_text_edits_to_pdf doc edits =
        Except.ok (doc.pages.enum.map (pageStep edits))) ∧
    (∀ (K : String), (pyInt K = none ∨ ∃ m : Int, pyInt K = some m ∧ m < 0) →
      ∀ (doc : Doc) (v : PageEdits) (pre post : Edits),
        apply_text_edits_to_pdf doc (pre ++ (K, v) :: post) =
          apply_text_edits_to_pdf doc (pre ++ post)) ∧
    (∀ (page : Page) (spans : List Span) (s t : String),
      (pyInt s = none ∨ ∃ m : Int, pyInt s = some m ∧ m < 0) →
      ∀ (pre post : PageEdits) (k : Nat),
        processEdits page spans (pre ++ (s, t) :: post) k =
          processEdits page spans (pre ++ post) k) ∧
    (∀ (page : Page) (s t : String),
      (pyInt s = none ∨ ∃ m : Int, pyInt s = some m ∧ m < 0) →
      ∀ (pre post : PageEdits),
        processPage page (pre ++ (s, t) :: post) = processPage page (pre ++ post)) := by
  have hdrop : ∀ (page : Page) (spans : List Span) (s t : String),
      (pyInt s = none ∨ ∃ m : Int, pyInt s = some m ∧ m < 0) →
      ∀ (pre post : PageEdits) (k : Nat),
        processEdits page spans (pre ++ (s, t) :: post) k =
          processEdits page spans (pre ++ post) k := by
    intro page spans s t hbad pre post k
    apply processEdits_drop
    rcases hbad with hn | ⟨m, hm, hneg⟩
    · exact Or.inl hn
    · exact Or.inr ⟨m, hm, Or.inl hneg⟩
  refine ⟨apply_eq_ok, ?_, hdrop, ?_⟩
  · intro K hbad doc v pre post
    apply apply_drop_key
    intro j _ hKj
    rw [hKj, pyInt_pyStr j] at hbad
    rcases hbad with hn | ⟨m, hm, hneg⟩
    · cases hn
    · have : (j : Int) = m := Option.some.inj hm
      omega
  · intro page s t hbad pre post
    exact processPage_congr _ _ _ (fun k =>
      hdrop page (pageSpansApply page) s t hbad pre post k)

/-- C4 witness: the malformed fragment key `"abc"` is dropped without
affecting the remaining valid edit, and a malformed page key `"x"` is
dropped from the EditSet without affecting the document. -/
theorem C4_malformed_keys_dropped_witness :
    processEdits helloPage (pageSpansApply helloPage)
        ([] ++ ("abc", "bad") :: [("0", "Bonjour")]) 0 =
      processEdits helloPage (pageSpansApply helloPage) ([] ++ [("0", "Bonjour")]) 0 :=
  C4_malformed_keys_dropped.2.2.1 helloPage (pageSpansApply helloPage) "abc" "bad"
    (Or.inl (by decide)) [] [("0", "Bonjour")] 0

/-- C5: text is only ever inserted for an entry whose redaction mark was
successfully added (every insertion point comes from a marked bbox), a page
whose redaction commit failed gets no insertion at all, and every page's
result depends only on that page and its own edits, so other pages are
processed normally. -/
theorem C5_insertion_only_after_mark_and_commit :
    (∀ (page : Page) (pe : PageEdits),
      (processPage page pe).committed = false → (processPage page pe).inserted = []) ∧
    (∀ (page : Page) (pe : PageEdits) (ins : TextInsertion),
      ins ∈ (processPage page pe).inserted →
      ∃ b ∈ (processPage page pe).marked, ¬(b.length < 4) ∧
        ins.point = (b.getD 0 0, b.getD 3 0 - 1)) ∧
    (∀ (doc : Doc) (edits : Edits), doc.openFails = false → doc.saveFails = false →
      ∃ rs, apply_text_edits_to_pdf doc edits = Except.ok rs ∧
        rs.length = doc.pages.length ∧
        ∀ (i : Nat) (page : Page), doc.pages[i]? = some page →
          rs[i]? = some (pageStep edits (i, page))) := by
  refine ⟨processPage_commit_fail, ?_, ?_⟩
  · intro page pe ins hins
    by_cases ha : page.applyRedactionsFails
    · exfalso
      have : (processPage page pe).inserted = [] := by
        unfold processPage
        simp [ha]
      rw [this] at hins
      cases hins
    · have haf : page.applyRedactionsFails = false := by
        cases hb : page.applyRedactionsFails
        · rfl
        · exact absurd hb ha
      rw [processPage_inserted page pe haf] at hins
      obtain ⟨item, hitem, h4, heq⟩ := insertLoop_mem page _ 0 ins hins
      refine ⟨item.bbox, ?_, h4, ?_⟩
      · rw [processPage_marked]
        exact List.mem_map_of_mem PlanEntry.bbox hitem
      · rw [heq]
  · intro doc edits h1 h2
    refine ⟨doc.pages.enum.map (pageStep edits), apply_eq_ok doc edits h1 h2, ?_, ?_⟩
    · rw [List.length_map, List.enum_length]
    · intro i page hp
      rw [List.getElem?_map]
      have he : doc.pages.enum[i]? = some (i, page) := by
        have h0 := enumFrom_getElem? doc.pages 0 i
        rw [List.enum]
        rw [h0, hp]
        simp
      rw [he]
      rfl

/-- C5 witness: on a page whose redaction commit fails, no text at all is
inserted. -/
theorem C5_insertion_only_after_mark_and_commit_witness :
    (processPage commitFailPage [("0", "Bonjour")]).inserted = [] :=
  C5_insertion_only_after_mark_and_commit.1 commitFailPage [("0", "Bonjour")] (by decide)

/-- C6: both operations propagate an error to the caller exactly when the
document cannot be opened, `apply_text_edits_to_pdf` additionally when final
serialization fails, in which case no output value is returned; no other
internal failure (marking, committing or inserting, however the per-page
failure oracles behave) makes either operation raise. -/
theorem C6_fatal_errors_exactly_open_and_save (doc : Doc) (edits : Edits) :
    ((∃ e, extract_text_from_pdf doc = Except.error e) ↔ doc.openFails = true) ∧
    ((∃ e, apply_text_edits_to_pdf doc edits = Except.error e) ↔
      (doc.openFails = true ∨ doc.saveFails = true)) ∧
    (∀ e, apply_text_edits_to_pdf doc edits = Except.error e →
      ∀ rs, apply_text_edits_to_pdf doc edits ≠ Except.ok rs) := by
  refine ⟨⟨?_, ?_⟩, ⟨?_, ?_⟩, ?_⟩
  · intro ⟨e, he⟩
    by_cases h1 : doc.openFails
    · exact h1
    · unfold extract_text_from_pdf at he
      rw [if_neg h1] at he
      cases he
  · intro h1
    refine ⟨PdfError.openError, ?_⟩
    unfold extract_text_from_pdf
    rw [if_pos h1]
  · intro ⟨e, he⟩
    by_cases h1 : doc.openFails
    · exact Or.inl h1
    · by_cases h2 : doc.saveFails
      · exact Or.inr h2
      · unfold apply_text_edits_to_pdf at he
        rw [if_neg h1, if_neg h2] at he
        cases he
  · intro h
    unfold apply_text_edits_to_pdf
    rcases h with h1 | h2
    · exact ⟨PdfError.openError, by rw [if_pos h1]⟩
    · by_cases h1 : doc.openFails
      · exact ⟨PdfError.openError, by rw [if_pos h1]⟩
      · exact ⟨PdfError.saveError, by rw [if_neg h1, if_pos h2]⟩
  · intro e he rs hok
    rw [he] at hok
    cases hok

/-- C6 witness: a document that fails to open makes `extract_text_from_pdf`
report an error. -/
theorem C6_fatal_errors_exactly_open_and_save_witness :
    ∃ e, extract_text_from_pdf corruptDoc = Except.error e :=
  (C6_fatal_errors_exactly_open_and_save corruptDoc []).1.mpr rfl

/-- C7: every performed text insertion draws the entry's replacement text at
the anchor `(x0, y1 - 1)` — the bottom-left corner of the entry's bbox nudged
up by one unit — with the entry's font name and size and always in solid
black `(0, 0, 0)` regardless of the original color; and when no insertion
call fails and every bbox has four coordinates, every plan entry is drawn
exactly so. -/
theorem C7_insertion_anchor_font_size_black :
    (∀ (page : Page) (plan : List PlanEntry) (k : Nat) (ins : TextInsertion),
      ins ∈ insertLoop page plan k →
      ∃ item ∈ plan, ¬(item.bbox.length < 4) ∧
        ins = { point := (item.bbox.getD 0 0, item.bbox.getD 3 0 - 1)
                text := item.new_text
                fontname := item.font
                fontsize := item.size
                color := (0, 0, 0) }) ∧
    (∀ (page : Page) (plan : List PlanEntry) (k : Nat),
      (∀ j, page.insertTextFails j = false) →
      (∀ item ∈ plan, ¬(item.bbox.length < 4)) →
      insertLoop page plan k = plan.map fun item =>
        { point := (item.bbox.getD 0 0, item.bbox.getD 3 0 - 1)
          text := item.new_text
          fontname := item.font
          fontsize := item.size
          color := (0, 0, 0) }) :=
  ⟨insertLoop_mem, fun page plan k h1 h2 => insertLoop_all page h1 plan k h2⟩

/-- C7 witness: on a concrete plan entry with bbox `[10,10,50,20]` the
insertion is at `(10, 20 - 1)` in the entry's font and size, in black. -/
theorem C7_insertion_anchor_font_size_black_witness :
    insertLoop helloPage
        [{ bbox := [10, 10, 50, 20], font := "Helvetica", size := 12, color := 0,
           new_text := "Bonjour" }] 0 =
      ([{ bbox := [10, 10, 50, 20], font := "Helvetica", size := 12, color := 0,
          new_text := "Bonjour" }] : List PlanEntry).map (fun item =>
        ({ point := (item.bbox.getD 0 0, item.bbox.getD 3 0 - 1)
           text := item.new_text
           fontname := item.font
           fontsize := item.size
           color := (0, 0, 0) } : TextInsertion)) :=
  C7_insertion_anchor_font_size_black.2 helloPage
    [{ bbox := [10, 10, 50, 20], font := "Helvetica", size := 12, color := 0,
       new_text := "Bonjour" }] 0 (fun _ => rfl) (by decide)

/-- C8: a page whose index has no entry in the EditSet is left entirely
untouched: no redaction marked, no commit attempted, no text inserted; in
particular an empty EditSet modifies no page. -/
theorem C8_pages_without_edits_untouched (doc : Doc) (edits : Edits)
    (h1 : doc.openFails = false) (h2 : doc.saveFails = false) :
    ∃ rs, apply_text_edits_to_pdf doc edits = Except.ok rs ∧
      rs.length = doc.pages.length ∧
      (∀ i, i < doc.pages.length → List.lookup (pyStr i) edits = none →
        rs[i]? = some emptyPageResult) ∧
      (edits = [] → ∀ r ∈ rs, r = emptyPageResult) := by
  refine ⟨doc.pages.enum.map (pageStep edits), apply_eq_ok doc edits h1 h2, ?_, ?_, ?_⟩
  · rw [List.length_map, List.enum_length]
  · intro i hi hlk
    have hp : doc.pages[i]? = some doc.pages[i] := List.getElem?_eq_getElem hi
    rw [List.getElem?_map]
    have he : doc.pages.enum[i]? = some (i, doc.pages[i]) := by
      have h0 := enumFrom_getElem? doc.pages 0 i
      rw [List.enum]
      rw [h0, hp]
      simp
    rw [he]
    unfold pageStep
    simp [hlk]
  · rintro rfl r hr
    obtain ⟨x, _, hx⟩ := List.mem_map.mp hr
    rw [← hx]
    unfold pageStep
    rfl

/-- C8 witness: with an edit only on page 0 of a two-page document, page 1 is
returned untouched. -/
theorem C8_pages_without_edits_untouched_witness :
    ∃ rs, apply_text_edits_to_pdf twoPageDoc [("0", [("0", "Bonjour")])] = Except.ok rs ∧
      rs.length = twoPageDoc.pages.length ∧
      (∀ i, i < twoPageDoc.pages.length →
        List.lookup (pyStr i) [("0", [("0", "Bonjour")])] = none →
        rs[i]? = some emptyPageResult) ∧
      ([("0", [("0", "Bonjour")])] = ([] : Edits) → ∀ r ∈ rs, r = emptyPageResult) :=
  C8_pages_without_edits_untouched twoPageDoc [("0", [("0", "Bonjour")])] rfl rfl

/-- C10: `apply_text_edits_to_pdf` selects a page's edits by exact string
equality with the canonical decimal `str(i)`, so a numerically valid but
non-canonical page key (such as `"05"`, `" 0"` or `"+1"`) matches no page and
is silently ignored with no effect, even though the very same string is
accepted for a fragment-index key, where it behaves exactly like the
canonical decimal key. -/
theorem C10_noncanonical_page_keys_ignored (K : String) (n : Int)
    (hK : pyInt K = some n) (hn : 0 ≤ n) (hnc : K ≠ pyStr n.toNat) :
    (∀ j : Nat, K ≠ pyStr j) ∧
    (∀ (doc : Doc) (v : PageEdits) (pre post : Edits),
      apply_text_edits_to_pdf doc (pre ++ (K, v) :: post) =
        apply_text_edits_to_pdf doc (pre ++ post)) ∧
    (∀ (page : Page) (spans : List Span) (t : String) (rest : PageEdits) (k : Nat),
      processEdits page spans ((K, t) :: rest) k =
        processEdits page spans ((pyStr n.toNat, t) :: rest) k) := by
  have hne : ∀ j : Nat, K ≠ pyStr j := by
    intro j hKj
    rw [hKj, pyInt_pyStr j] at hK
    have hj : (j : Int) = n := Option.some.inj hK
    apply hnc
    rw [hKj]
    congr 1
    omega
  refine ⟨hne, fun doc v pre post =>
    apply_drop_key doc K v (fun j _ => hne j) pre post, ?_⟩
  intro page spans t rest k
  have hpy2 : pyInt (pyStr n.toNat) = some n := by
    rw [pyInt_pyStr]
    congr 1
    omega
  simp only [processEdits, hK, hpy2]

/-- C10 witness: the page key `"05"` parses as 5 but is not `str(5)`, so an
entry keyed `"05"` has no effect on a two-page document, while `"05"` as a
fragment key behaves like `"5"`. -/
theorem C10_noncanonical_page_keys_ignored_witness :
    apply_text_edits_to_pdf twoPageDoc ([] ++ ("05", [("0", "x")]) :: []) =
      apply_text_edits_to_pdf twoPageDoc ([] ++ []) :=
  (C10_noncanonical_page_keys_ignored "05" 5 (by decide) (by decide)
    (by decide)).2.1 twoPageDoc [("0", "x")] [] []

/-- C1 witness: on the one-page scenario document the extracted fragment list
and the re-derived span list agree. -/
theorem C1_rederivation_matches_extraction_witness :
    ∃ fr, ({ pages := [[{ text := "Hello"
                          bbox := [10, 10, 50, 20]
                          font := "Helvetica"
                          size := 12
                          color := 0 }]] } : Extraction).pages[0]? = some fr ∧
      fr.length = (pageSpansApply helloPage).length ∧
      ∀ (j : Nat) (span : Span), (pageSpansApply helloPage)[j]? = some span →
        fr[j]? = some { text := span.text.getD ""
                        bbox := span.bbox.getD []
                        font := span.font.getD ""
                        size := span.size.getD 0
                        color := span.color.getD 0 } :=
  C1_rederivation_matches_extraction helloDoc
    { pages := [[{ text := "Hello"
                   bbox := [10, 10, 50, 20]
                   font := "Helvetica"
                   size := 12
                   color := 0 }]] }
    (by decide) 0 helloPage rfl

/-- C2 witness: the amended default rule evaluated on the concrete page whose
span has an empty font and zero size. -/
theorem C2_plan_entry_defaults_witness :
    ∃ (idxStr txt : String) (n : Int) (span : Span),
      (idxStr, txt) ∈ [("0", "new")] ∧ pyInt idxStr = some n ∧ 0 ≤ n ∧
      n.toNat < (pageSpansApply emptyFontPage).length ∧
      span = (pageSpansApply emptyFontPage).getD n.toNat default ∧
      ({ bbox := [1, 2, 3, 4], font := "", size := 0, color := 5,
                                                                new_text := "new" } : PlanEntry).bbox = span.bbox.getD [] ∧
      ({ bbox := [1, 2, 3, 4], font := "", size := 0, color := 5,
                                                                new_text := "new" } : PlanEntry).color = span.color.getD 0 ∧
      ({ bbox := [1, 2, 3, 4], font := "", size := 0, color := 5,
                                                                new_text := "new" } : PlanEntry).font = span.font.getD "helv" ∧
      ({ bbox := [1, 2, 3, 4], font := "", size := 0, color := 5,
                                                                new_text := "new" } : PlanEntry).size = span.size.getD 12 ∧
      ({ bbox := [1, 2, 3, 4], font := "", size := 0, color := 5,
                                                                new_text := "new" } : PlanEntry).new_text = txt ∧
      (∀ fo, span.font = some fo →
        ({ bbox := [1, 2, 3, 4], font := "", size := 0, color := 5,
                                                                new_text := "new" } : PlanEntry).font = fo) ∧
      (∀ sz, span.size = some sz →
        ({ bbox := [1, 2, 3, 4], font := "", size := 0, color := 5,
                                                                new_text := "new" } : PlanEntry).size = sz) :=
  C2_plan_entry_defaults emptyFontPage (pageSpansApply emptyFontPage)
    [("0", "new")] 0
    { bbox := [1, 2, 3, 4], font := "", size := 0, color := 5, new_text := "new" }
    (by decide)
